import Mathlib

/-
Verification of the feed-forward classifier trainer extracted from the
intro-to-pytorch notebooks (Part 3 - Training Neural Networks, Part 5 -
Inference and Validation).  Tensors are embedded as lists of real numbers,
batches as lists of rows; the stochastic-gradient machinery is embedded as
explicit state passing over a record of parameters, gradients and running
metrics.
-/

namespace DLP

noncomputable section

/-- Dot product of two equal-length vectors, as computed by torch.matmul on a
row/column pair. -/
def dot (w x : List ℝ) : ℝ := (List.zipWith (fun a b => a * b) w x).sum

/-- One affine layer: an nn.Linear(in_features, out_features) module.  The
weight is stored as one row per output unit (the nn.Linear convention), the
bias as one entry per output unit. -/
structure Layer where
  weight : List (List ℝ)
  bias : List ℝ

/-- Applying an affine layer to one example row: output unit j is
dot(weight[j], x) + bias[j], as in nn.Linear.forward. -/
def affine (L : Layer) (x : List ℝ) : List ℝ :=
  List.zipWith (fun w b => dot w x + b) L.weight L.bias

/-- F.relu on one scalar. -/
def reluR (x : ℝ) : ℝ := max x 0

/-- The sigmoid function from the Part 5 manual network:
sigmoid(x) = 1/(1+torch.exp(-x)). -/
def sigmoidR (x : ℝ) : ℝ := 1 / (1 + Real.exp (-x))

/-- The hidden-layer activation choice of the spec: sigmoid or
rectified-linear. -/
inductive Act
  | relu
  | sigmoid

/-- Interpreting the activation choice as a function on scalars. -/
def Act.apply : Act → ℝ → ℝ
  | .relu => reluR
  | .sigmoid => sigmoidR

/-- Maximum entry of a row, used by the numerically stabilized log-softmax;
0 on the empty row. -/
def rowMax : List ℝ → ℝ
  | [] => 0
  | x :: xs => xs.foldl max x

/-- F.log_softmax(z, dim=1) applied to one row, in the numerically
stabilized form the library computes: subtract the row maximum before
exponentiating. -/
def logSoftmax (z : List ℝ) : List ℝ :=
  z.map fun zi =>
    (zi - rowMax z) - Real.log ((z.map fun zj => Real.exp (zj - rowMax z)).sum)

/-- The spec component FeedForwardClassifier: a stack of hidden affine
layers with a shared activation, and a final affine layer.  The source
instance (Classifier in Part 5) has hidden layers 784-256, 256-128, 128-64
with relu and output layer 64-10. -/
structure FeedForwardClassifier where
  hidden : List Layer
  outLayer : Layer
  act : Act

/-- Classifier.forward on one already-flattened row: activation after each
hidden affine layer, then the output affine layer followed by log-softmax
(no activation on the output layer). -/
def FeedForwardClassifier.forward (c : FeedForwardClassifier) (x : List ℝ) : List ℝ :=
  logSoftmax (affine c.outLayer (c.hidden.foldl (fun v L => (affine L v).map c.act.apply) x))

/-- The predict interface of the spec: the forward pass mapped over a 2D
batch, one row per example. -/
def FeedForwardClassifier.predict (c : FeedForwardClassifier) (xs : List (List ℝ)) :
    List (List ℝ) :=
  xs.map c.forward

/-- Follows the spec words for the final normalization, for the refinement
claim: log_softmax(z)_i = z_i - log(sum_j exp(z_j)), with no stabilization. -/
def specLogSoftmax (z : List ℝ) : List ℝ :=
  z.map fun zi => zi - Real.log ((z.map Real.exp).sum)

/-- Follows the spec words for predict, for the refinement claim: for each
layer except the last, output = activation(input @ weight + bias); for the
last layer the affine transform alone followed by the plain per-row
log-softmax. -/
def specPredict (c : FeedForwardClassifier) (xs : List (List ℝ)) : List (List ℝ) :=
  xs.map fun x =>
    specLogSoftmax (affine c.outLayer (c.hidden.foldl (fun v L => (affine L v).map c.act.apply) x))

/-- A training or validation batch: a 2D input block, one row per example,
paired with one integer label per example. -/
structure Batch where
  inputs : List (List ℝ)
  labels : List ℕ

/-- Modelled from the spec: the external LossFunction collaborator,
nn.NLLLoss() with mean reduction on log-probability rows — the mean over the
batch of the negated label-indexed entry of each row. -/
def nllLoss (logps : List (List ℝ)) (labels : List ℕ) : ℝ :=
  -((List.zipWith (fun row l => row.getD l 0) logps labels).sum) / logps.length

/-- The gradient accumulators: one tensor per Parameter, mirroring the
classifier's layer layout. -/
structure ParamGrads where
  hidden : List Layer
  outLayer : Layer

/-- optimizer.zero_grad() on one layer: every gradient entry becomes zero,
shapes kept. -/
def zeroLayer (L : Layer) : Layer :=
  ⟨L.weight.map fun r => List.replicate r.length 0, List.replicate L.bias.length 0⟩

/-- optimizer.zero_grad() across all Parameters. -/
def zeroGrads (g : ParamGrads) : ParamGrads :=
  ⟨g.hidden.map zeroLayer, zeroLayer g.outLayer⟩

/-- Entrywise sum of two same-shaped layers. -/
def addLayer (a b : Layer) : Layer :=
  ⟨List.zipWith (List.zipWith (fun x y => x + y)) a.weight b.weight,
   List.zipWith (fun x y => x + y) a.bias b.bias⟩

/-- Gradient accumulation: loss.backward() adds the new contribution into
the stored gradients. -/
def addGrads (a b : ParamGrads) : ParamGrads :=
  ⟨List.zipWith addLayer a.hidden b.hidden, addLayer a.outLayer b.outLayer⟩

/-- Modelled from the spec: the external autodiff collaborator, abstracted
as any function producing the gradient contribution of one batch at the
current parameters. -/
abbrev GradFn : Type := FeedForwardClassifier → Batch → ParamGrads

/-- The SGD update rule of Part 3 on one layer: param := param - lr * grad. -/
def sgdLayer (lr : ℝ) (L G : Layer) : Layer :=
  ⟨List.zipWith (List.zipWith (fun w g => w - lr * g)) L.weight G.weight,
   List.zipWith (fun b g => b - lr * g) L.bias G.bias⟩

/-- optimizer.step(): the update rule applied to every Parameter. -/
def sgdUpdate (lr : ℝ) (m : FeedForwardClassifier) (g : ParamGrads) :
    FeedForwardClassifier :=
  ⟨List.zipWith (sgdLayer lr) m.hidden g.hidden, sgdLayer lr m.outLayer g.outLayer, m.act⟩

/-- The mutable state threaded through training and validation: the model
Parameters, their gradient accumulators, the running metrics, the autograd
mode, and the module train/eval mode. -/
structure RunState where
  model : FeedForwardClassifier
  grads : ParamGrads
  runningLoss : ℝ
  testLoss : ℝ
  accuracy : ℝ
  gradEnabled : Bool
  trainingMode : Bool

/-- The six operations of one training step, used to record execution
order. -/
inductive TrainOp
  | zeroGrad
  | forwardPass
  | lossCompute
  | backward
  | optimStep
  | accumulate

/-- optimizer.zero_grad() as a step operation. -/
def opZeroGrad (s : RunState) : RunState × TrainOp :=
  ({ s with grads := zeroGrads s.grads }, .zeroGrad)

/-- log_ps = model(images) as a step operation: a pure read of the model. -/
def opForward (b : Batch) (s : RunState) : (List (List ℝ) × RunState) × TrainOp :=
  ((s.model.predict b.inputs, s), .forwardPass)

/-- loss = criterion(log_ps, labels) as a step operation. -/
def opLoss (logps : List (List ℝ)) (b : Batch) (s : RunState) :
    (ℝ × RunState) × TrainOp :=
  ((nllLoss logps b.labels, s), .lossCompute)

/-- loss.backward() as a step operation: the autodiff collaborator adds the
batch gradient into the accumulators. -/
def opBackward (gf : GradFn) (b : Batch) (s : RunState) : RunState × TrainOp :=
  ({ s with grads := addGrads s.grads (gf s.model b) }, .backward)

/-- optimizer.step() as a step operation. -/
def opOptimStep (lr : ℝ) (s : RunState) : RunState × TrainOp :=
  ({ s with model := sgdUpdate lr s.model s.grads }, .optimStep)

/-- running_loss += loss.item() as a step operation. -/
def opAccumulate (l : ℝ) (s : RunState) : RunState × TrainOp :=
  ({ s with runningLoss := s.runningLoss + l }, .accumulate)

/-- One training step, the loop body of the Part 3 training loop: gradient
reset, forward pass, loss, backward pass, optimizer step, loss
accumulation; the returned list records the operations in execution
order. -/
def trainingStep (gf : GradFn) (lr : ℝ) (b : Batch) (s : RunState) :
    RunState × List TrainOp :=
  let (s1, t1) := opZeroGrad s
  let ((logps, s2), t2) := opForward b s1
  let ((l, s3), t3) := opLoss logps b s2
  let (s4, t4) := opBackward gf b s3
  let (s5, t5) := opOptimStep lr s4
  let (s6, t6) := opAccumulate l s5
  (s6, [t1, t2, t3, t4, t5, t6])

/-- One epoch: the training step folded over the epoch's batches, with the
per-batch traces collected in order. -/
def trainEpoch (gf : GradFn) (lr : ℝ) : List Batch → RunState → RunState × List (List TrainOp)
  | [], s => (s, [])
  | b :: rest, s =>
    let (s1, t) := trainingStep gf lr b s
    let (s2, ts) := trainEpoch gf lr rest s1
    (s2, t :: ts)

/-- The shape of one layer: the list of weight-row lengths and the bias
length. -/
def layerShape (L : Layer) : List ℕ × ℕ := (L.weight.map List.length, L.bias.length)

/-- The shape of a full set of gradient accumulators. -/
def gradsShape (g : ParamGrads) : List (List ℕ × ℕ) × (List ℕ × ℕ) :=
  (g.hidden.map layerShape, layerShape g.outLayer)

/-- The index scan behind topk(1): running maximum with current index and
best index so far, replacing the best only on a strictly larger entry. -/
def idxOfMaxAux : List ℝ → ℝ → ℕ → ℕ → ℕ
  | [], _, _, best => best
  | x :: xs, cur, i, best =>
    if cur < x then idxOfMaxAux xs x (i + 1) i else idxOfMaxAux xs cur (i + 1) best

/-- Index of the first largest entry of a row: the class index returned by
ps.topk(1, dim = 1) for that row. -/
def idxOfMax : List ℝ → ℕ
  | [] => 0
  | x :: xs => idxOfMaxAux xs x 1 0

/-- The validation loop's per-example predicted class: argmax over the
class axis of exp(log_ps), as in ps = torch.exp(log_ps) followed by
ps.topk(1, dim = 1). -/
def predictedLabel (row : List ℝ) : ℕ := idxOfMax (row.map Real.exp)

/-- One batch's accuracy contribution:
torch.mean((top_class == labels).float()). -/
def batchAccuracy (logps : List (List ℝ)) (labels : List ℕ) : ℝ :=
  ((List.zipWith (fun row l => if predictedLabel row = l then (1 : ℝ) else 0)
      logps labels).sum) / labels.length

/-- The error the loss collaborator can surface, from the spec's error
taxonomy. -/
inductive VErr
  | invalidLabel

/-- Modelled from the spec: the loss collaborator fails with InvalidLabel
when a label falls outside the class range. One row's negative log
likelihood. -/
def nllRowE (row : List ℝ) (l : ℕ) : Except VErr ℝ :=
  if h : l < row.length then .ok (-(row.get ⟨l, h⟩)) else .error .invalidLabel

/-- Sum of the per-example negative log likelihoods, first failure
propagated. -/
def nllSumE : List (List ℝ × ℕ) → Except VErr ℝ
  | [] => .ok 0
  | (row, l) :: rest => do
    let x ← nllRowE row l
    let s ← nllSumE rest
    pure (x + s)

/-- nn.NLLLoss with mean reduction and the label-range failure of the
spec. -/
def nllLossE (logps : List (List ℝ)) (labels : List ℕ) : Except VErr ℝ :=
  (nllSumE (logps.zip labels)).map fun s => s / logps.length

/-- The body of the Part 5 validation loop: fold the held-out batches,
accumulating test_loss and accuracy; a loss error aborts the pass with the
metrics gathered so far. -/
def validationLoop : List Batch → RunState → RunState × Except VErr Unit
  | [], s => (s, .ok ())
  | b :: rest, s =>
    let logps := s.model.predict b.inputs
    match nllLossE logps b.labels with
    | .error e => (s, .error e)
    | .ok l =>
      validationLoop rest
        { s with
          testLoss := s.testLoss + l,
          accuracy := s.accuracy + batchAccuracy logps b.labels }

/-- The with torch.no_grad() block: the context manager saves the prior
grad mode, disables it for the body, and restores it when the block is
left — also when the body stops with an error, since the context manager
exit runs on exceptions as well. -/
def noGradScope (s : RunState) (body : RunState → RunState × Except VErr Unit) :
    RunState × Except VErr Unit :=
  let prior := s.gradEnabled
  let (s1, r) := body { s with gradEnabled := false }
  ({ s1 with gradEnabled := prior }, r)

/-- ValidationPass: the with torch.no_grad() scope wrapping the validation
loop over the held-out batches. -/
def validationPass (bs : List Batch) (s : RunState) : RunState × Except VErr Unit :=
  noGradScope s (fun s1 => validationLoop bs s1)

/-- Classifier_with_Drop_out from Part 5: four affine layers with an
nn.Dropout(p = 0.2) after each hidden relu. -/
structure DropClassifier where
  fc1 : Layer
  fc2 : Layer
  fc3 : Layer
  fc4 : Layer
  p : ℝ

/-- nn.Dropout on one row: in training mode each unit is multiplied by its
Bernoulli mask entry and rescaled by 1/(1-p); in eval mode the identity.
The mask draw belongs to the environment and is passed in explicitly. -/
def dropout (training : Bool) (p : ℝ) (mask : List ℝ) (v : List ℝ) : List ℝ :=
  if training then List.zipWith (fun m x => m * x / (1 - p)) mask v else v

/-- Classifier_with_Drop_out.forward on one flattened row, with the
train/eval mode and the three mask draws made explicit. -/
def DropClassifier.forward (c : DropClassifier) (training : Bool)
    (m1 m2 m3 : List ℝ) (x : List ℝ) : List ℝ :=
  let h1 := dropout training c.p m1 ((affine c.fc1 x).map reluR)
  let h2 := dropout training c.p m2 ((affine c.fc2 h1).map reluR)
  let h3 := dropout training c.p m3 ((affine c.fc3 h2).map reluR)
  logSoftmax (affine c.fc4 h3)

/-- torch.matmul on 2D tensors. -/
def matMul (A B : List (List ℝ)) : List (List ℝ) :=
  A.map fun row => B.transpose.map fun col => dot row col

/-- Elementwise sum of 2D tensors with torch broadcasting over the batch
dimension: an operand with a single row is stretched to match the other
operand. -/
def broadcastAdd (a b : List (List ℝ)) : List (List ℝ) :=
  if a.length = b.length then List.zipWith (List.zipWith (fun x y => x + y)) a b
  else if a.length = 1 then b.map fun r => List.zipWith (fun x y => x + y) a.headI r
  else if b.length = 1 then a.map fun r => List.zipWith (fun x y => x + y) r b.headI
  else []

/-- The Part 5 manual two-layer network: h1 = sigmoid(images @ W1 + b1),
h2 = sigmoid(h1 @ W2 + b2), where b1 and b2 are full 64-row tensors, one
bias row per example of the hard-coded batch of 64. -/
def manualNet (W1 W2 b1 b2 images : List (List ℝ)) : List (List ℝ) :=
  let h1 := (broadcastAdd (matMul images W1) b1).map (List.map sigmoidR)
  (broadcastAdd (matMul h1 W2) b2).map (List.map sigmoidR)

/-- One unflattened image: channels, height, width as nested lists. -/
abbrev Tensor3 : Type := List (List (List ℝ))

/-- The total flattening of one image, as x.view performs on the trailing
dimensions. -/
def flatten3 (t : Tensor3) : List ℝ := t.flatten.flatten

/-- The x = x.view(x.shape[0], -1) line of Classifier.forward: the forward
pass applied to a batch of unflattened examples, each flattened first. -/
def FeedForwardClassifier.predictRaw (c : FeedForwardClassifier) (x : List Tensor3) :
    List (List ℝ) :=
  c.predict (x.map flatten3)

/-- The first weight tensor of the manual network, W1 = [784, 256], taken
at zero entries. -/
def mnW1 : List (List ℝ) := List.replicate 784 (List.replicate 256 0)

/-- The second weight tensor of the manual network, W2 = [256, 10], taken
at zero entries. -/
def mnW2 : List (List ℝ) := List.replicate 256 (List.replicate 10 0)

/-- The first bias tensor of the manual network, hard-coded to shape
[64, 256]. -/
def mnB1 : List (List ℝ) := List.replicate 64 (List.replicate 256 0)

/-- The second bias tensor of the manual network, hard-coded to shape
[64, 10]. -/
def mnB2 : List (List ℝ) := List.replicate 64 (List.replicate 10 0)

/-- A batch of one 784-feature example for the manual network. -/
def mnImg : List (List ℝ) := [List.replicate 784 1]

/-- A small concrete hidden layer for witnesses: widths 2 to 2. -/
def exHidden : Layer := ⟨[[1, 0], [0, 1]], [0, 0]⟩

/-- A small concrete output layer for witnesses: widths 2 to 2. -/
def exOut : Layer := ⟨[[1, 2], [3, 4]], [1, 0]⟩

/-- A small concrete classifier for witnesses: widths [2, 2, 2], relu. -/
def exNet : FeedForwardClassifier := ⟨[exHidden], exOut, .relu⟩

/-- A one-example concrete batch for witnesses. -/
def exBatch : Batch := ⟨[[1, 0]], [0]⟩

/-- Concrete zero gradients matching exNet. -/
def exGrads : ParamGrads := ⟨[zeroLayer exHidden], zeroLayer exOut⟩

/-- Concrete nonzero gradients with the same shapes as exGrads. -/
def exGrads2 : ParamGrads := ⟨[exHidden], exOut⟩

/-- A concrete run state for witnesses. -/
def exState : RunState := ⟨exNet, exGrads, 0, 0, 0, true, true⟩

/-- A concrete autodiff collaborator for witnesses. -/
def exGradFn : GradFn := fun _ _ => exGrads2

end

section Lemmas

/-- Summing a list divided pointwise by a constant divides the sum. -/
theorem list_sum_map_div (l : List ℝ) (c : ℝ) :
    (l.map fun x => x / c).sum = l.sum / c := by
  induction l with
  | nil => simp
  | cons a t ih => simp [ih, add_div]

/-- The sum of exponentials of a nonempty row is positive. -/
theorem sum_map_exp_pos (z : List ℝ) (hz : z ≠ []) : 0 < (z.map Real.exp).sum := by
  apply List.sum_pos
  · intro x hx
    rcases List.mem_map.mp hx with ⟨a, _, rfl⟩
    exact Real.exp_pos a
  · simpa using hz

/-- The stabilized log-softmax of the source equals the plain formula of the
spec on every row. -/
theorem logSoftmax_eq_spec (z : List ℝ) : DLP.logSoftmax z = DLP.specLogSoftmax z := by
  rcases eq_or_ne z [] with rfl | hz
  · simp [DLP.logSoftmax, DLP.specLogSoftmax]
  · unfold DLP.logSoftmax DLP.specLogSoftmax
    have hS : 0 < (z.map Real.exp).sum := sum_map_exp_pos z hz
    have hmap : (z.map fun zj => Real.exp (zj - DLP.rowMax z)) =
        (z.map Real.exp).map fun t => t / Real.exp (DLP.rowMax z) := by
      rw [List.map_map]
      exact List.map_congr_left fun a _ => by simp [Real.exp_sub, Function.comp]
    rw [hmap, list_sum_map_div,
      Real.log_div (ne_of_gt hS) (Real.exp_ne_zero _), Real.log_exp]
    exact List.map_congr_left fun a _ => by ring

/-- Exponentiating a log-softmax row gives values summing to one (nonempty
rows). -/
theorem exp_logSoftmax_sum (z : List ℝ) (hz : z ≠ []) :
    ((DLP.logSoftmax z).map Real.exp).sum = 1 := by
  have hS : 0 < (z.map Real.exp).sum := sum_map_exp_pos z hz
  rw [logSoftmax_eq_spec]
  unfold DLP.specLogSoftmax
  have hmap : ((z.map fun zi => zi - Real.log ((z.map Real.exp).sum)).map Real.exp) =
      (z.map Real.exp).map fun t => t / (z.map Real.exp).sum := by
    rw [List.map_map, List.map_map]
    exact List.map_congr_left fun a _ => by
      simp [Function.comp, Real.exp_sub, Real.exp_log hS]
  rw [hmap, list_sum_map_div, div_self (ne_of_gt hS)]

/-- The forward pass produces one entry per output unit whenever the output
layer's weight and bias agree in length. -/
theorem forward_length (c : FeedForwardClassifier)
    (hw : c.outLayer.weight.length = c.outLayer.bias.length) (x : List ℝ) :
    (c.forward x).length = c.outLayer.bias.length := by
  simp [FeedForwardClassifier.forward, logSoftmax, affine, hw]

/-- C1: on every 2D batch whose rows all have the input width, predict
applies activation(input @ weight + bias) for each hidden layer and, for
the last layer, the affine transform alone followed by the per-row
normalization log_softmax(z)_i = z_i - log(sum_j exp(z_j)). -/
theorem predict_matches_spec (c : FeedForwardClassifier) (n : ℕ) (xs : List (List ℝ))
    (_hdim : ∀ r ∈ xs, r.length = n) :
    c.predict xs = specPredict c xs := by
  unfold FeedForwardClassifier.predict specPredict FeedForwardClassifier.forward
  exact List.map_congr_left fun x _ => by rw [logSoftmax_eq_spec]

/-- Witness for C1 at a concrete two-feature batch. -/
theorem predict_matches_spec_witness :
    (∀ r ∈ ([[(1 : ℝ), 0]] : List (List ℝ)), r.length = 2) ∧
      exNet.predict [[1, 0]] = specPredict exNet [[1, 0]] :=
  have h : ∀ r ∈ ([[(1 : ℝ), 0]] : List (List ℝ)), r.length = 2 := by
    intro r hr
    rw [List.mem_singleton] at hr
    subst hr
    rfl
  ⟨h, predict_matches_spec exNet 2 [[1, 0]] h⟩

/-- C2: every row of exp(predict(x)) sums to one — each output row is a
valid log-probability distribution. -/
theorem predict_rows_sum_one (c : FeedForwardClassifier) (xs : List (List ℝ))
    (hw : c.outLayer.weight ≠ []) (hb : c.outLayer.bias ≠ [])
    (row : List ℝ) (hrow : row ∈ c.predict xs) :
    (row.map Real.exp).sum = 1 := by
  rcases List.mem_map.mp hrow with ⟨x, _, rfl⟩
  apply exp_logSoftmax_sum
  apply List.ne_nil_of_length_pos
  rw [affine, List.length_zipWith]
  exact lt_min (List.length_pos.mpr hw) (List.length_pos.mpr hb)

/-- Witness for C2 at a concrete batch. -/
theorem predict_rows_sum_one_witness :
    (exNet.outLayer.weight ≠ [] ∧ exNet.outLayer.bias ≠ [] ∧
        exNet.forward [1, 0] ∈ exNet.predict [[1, 0]]) ∧
      ((exNet.forward [1, 0]).map Real.exp).sum = 1 :=
  have hw : exNet.outLayer.weight ≠ [] := by simp [exNet, exOut]
  have hb : exNet.outLayer.bias ≠ [] := by simp [exNet, exOut]
  have hm : exNet.forward [1, 0] ∈ exNet.predict [[1, 0]] :=
    List.mem_map.mpr ⟨[1, 0], List.mem_singleton.mpr rfl, rfl⟩
  ⟨⟨hw, hb, hm⟩, predict_rows_sum_one exNet [[1, 0]] hw hb _ hm⟩

/-- C6 (amended): the Classifier.forward path is batch-size agnostic: on a
batch of one row, predict returns exactly one row whose length is the
number of output units. -/
theorem predict_single_batch_shape (c : FeedForwardClassifier) (xs : List (List ℝ))
    (hw : c.outLayer.weight.length = c.outLayer.bias.length) (hx : xs.length = 1) :
    (c.predict xs).length = 1 ∧
      ∀ r ∈ c.predict xs, r.length = c.outLayer.bias.length := by
  refine ⟨by simp [FeedForwardClassifier.predict, hx], ?_⟩
  intro r hr
  rcases List.mem_map.mp hr with ⟨x, _, rfl⟩
  exact forward_length c hw x

/-- Witness for the amended C6 at a concrete one-row batch. -/
theorem predict_single_batch_shape_witness :
    (exNet.outLayer.weight.length = exNet.outLayer.bias.length ∧
        ([[(1 : ℝ), 0]] : List (List ℝ)).length = 1) ∧
      ((exNet.predict [[1, 0]]).length = 1 ∧
        ∀ r ∈ exNet.predict [[1, 0]], r.length = exNet.outLayer.bias.length) :=
  ⟨⟨rfl, rfl⟩, predict_single_batch_shape exNet [[1, 0]] rfl rfl⟩

/-- A matrix product has one row per row of the left operand. -/
theorem matMul_length (A B : List (List ℝ)) : (matMul A B).length = A.length := by
  simp [matMul]

/-- Broadcast addition of equal-height tensors keeps the height. -/
theorem broadcastAdd_length (a b : List (List ℝ)) (h : a.length = b.length) :
    (broadcastAdd a b).length = a.length := by
  unfold broadcastAdd
  rw [if_pos h, List.length_zipWith, h, min_self]

/-- Broadcast addition against a taller right operand stretches a one-row
left operand to the right operand's height. -/
theorem broadcastAdd_one_left (a b : List (List ℝ)) (h1 : a.length = 1)
    (h2 : a.length ≠ b.length) : (broadcastAdd a b).length = b.length := by
  unfold broadcastAdd
  rw [if_neg h2, if_pos h1, List.length_map]

/-- C6 as stated is false of the manual two-layer network: its bias tensors
are hard-coded to batch size 64, so a batch of one 784-feature row is
broadcast against them and yields 64 output rows, not 1. -/
theorem manualNet_batch_one_counterexample :
    (manualNet mnW1 mnW2 mnB1 mnB2 mnImg).length = 64 ∧
      (manualNet mnW1 mnW2 mnB1 mnB2 mnImg).length ≠ 1 := by
  have hb1 : mnB1.length = 64 := by unfold mnB1; rw [List.length_replicate]
  have hb2 : mnB2.length = 64 := by unfold mnB2; rw [List.length_replicate]
  have hA : (matMul mnImg mnW1).length = 1 := by rw [matMul_length]; rfl
  have hne : (matMul mnImg mnW1).length ≠ mnB1.length := by rw [hA, hb1]; omega
  have hh1 : ((broadcastAdd (matMul mnImg mnW1) mnB1).map (List.map sigmoidR)).length = 64 := by
    rw [List.length_map, broadcastAdd_one_left _ _ hA hne, hb1]
  have heq :
      (matMul ((broadcastAdd (matMul mnImg mnW1) mnB1).map (List.map sigmoidR)) mnW2).length =
        mnB2.length := by
    rw [matMul_length, hh1, hb2]
  have hfin : (manualNet mnW1 mnW2 mnB1 mnB2 mnImg).length = 64 := by
    simp only [manualNet]
    rw [List.length_map, broadcastAdd_length _ _ heq, matMul_length, hh1]
  exact ⟨hfin, by rw [hfin]; omega⟩

/-- Rows of zeros built from row lengths depend only on those lengths. -/
theorem map_zeroRow_eq {l l' : List (List ℝ)} (h : l.map List.length = l'.map List.length) :
    (l.map fun r => List.replicate r.length (0 : ℝ)) =
      l'.map fun r => List.replicate r.length 0 := by
  have e : ∀ w : List (List ℝ),
      (w.map fun r => List.replicate r.length (0 : ℝ)) =
        (w.map List.length).map fun n => List.replicate n 0 := by
    intro w
    rw [List.map_map]
    rfl
  rw [e, e, h]

/-- Resetting a layer's gradients depends only on the layer's shape. -/
theorem zeroLayer_eq_of_shape {L L' : Layer} (h : layerShape L = layerShape L') :
    zeroLayer L = zeroLayer L' := by
  have h1 : L.weight.map List.length = L'.weight.map List.length := congrArg Prod.fst h
  have h2 : L.bias.length = L'.bias.length := congrArg Prod.snd h
  unfold zeroLayer
  rw [map_zeroRow_eq h1, h2]

/-- Resetting a list of layer gradients depends only on their shapes. -/
theorem map_zeroLayer_eq :
    ∀ {l l' : List Layer}, l.map layerShape = l'.map layerShape →
      l.map zeroLayer = l'.map zeroLayer
  | [], [], _ => rfl
  | [], _ :: _, h => by simp at h
  | _ :: _, [], h => by simp at h
  | a :: t, a' :: t', h => by
    simp only [List.map_cons, List.cons.injEq] at h ⊢
    exact ⟨zeroLayer_eq_of_shape h.1, map_zeroLayer_eq h.2⟩

/-- The gradient reset depends only on the shapes of the accumulators. -/
theorem zeroGrads_eq_of_shape {g g' : ParamGrads} (h : gradsShape g = gradsShape g') :
    zeroGrads g = zeroGrads g' := by
  have h1 : g.hidden.map layerShape = g'.hidden.map layerShape := congrArg Prod.fst h
  have h2 : layerShape g.outLayer = layerShape g'.outLayer := congrArg Prod.snd h
  unfold zeroGrads
  rw [map_zeroLayer_eq h1, zeroLayer_eq_of_shape h2]

/-- C3: within an epoch every batch's training step performs, in this
order, the gradient reset, the forward pass, the loss computation, the
backward pass, the optimizer update and the loss accumulation — and since
the reset precedes the backward pass, the step's outcome does not depend on
whatever gradients were accumulated before the step. -/
theorem trainingStep_order (gf : GradFn) (lr : ℝ) (b : Batch) (bs : List Batch)
    (s : RunState) (g' : ParamGrads) (hshape : gradsShape g' = gradsShape s.grads) :
    (trainEpoch gf lr bs s).2 =
        List.replicate bs.length
          [TrainOp.zeroGrad, TrainOp.forwardPass, TrainOp.lossCompute,
            TrainOp.backward, TrainOp.optimStep, TrainOp.accumulate] ∧
      (trainingStep gf lr b { s with grads := g' }).1 = (trainingStep gf lr b s).1 := by
  constructor
  · clear hshape
    induction bs generalizing s with
    | nil => rfl
    | cons hd tl ih =>
      simp only [trainEpoch, trainingStep, opZeroGrad, opForward, opLoss, opBackward,
        opOptimStep, opAccumulate, List.length_cons, List.replicate_succ, List.cons.injEq]
      exact ⟨trivial, ih _⟩
  · have hz : zeroGrads g' = zeroGrads s.grads := zeroGrads_eq_of_shape (by rw [hshape])
    simp [trainingStep, opZeroGrad, opForward, opLoss, opBackward, opOptimStep,
      opAccumulate, hz]

/-- Witness for C3 at a concrete batch, state and shape-matching gradient
values. -/
theorem trainingStep_order_witness :
    gradsShape exGrads2 = gradsShape exState.grads ∧
      ((trainEpoch exGradFn 1 [exBatch] exState).2 =
          List.replicate 1
            [TrainOp.zeroGrad, TrainOp.forwardPass, TrainOp.lossCompute,
              TrainOp.backward, TrainOp.optimStep, TrainOp.accumulate] ∧
        (trainingStep exGradFn 1 exBatch { exState with grads := exGrads2 }).1 =
          (trainingStep exGradFn 1 exBatch exState).1) :=
  have h : gradsShape exGrads2 = gradsShape exState.grads := by
    unfold gradsShape layerShape exGrads2 exState exGrads exHidden exOut zeroLayer
    simp
  ⟨h, trainingStep_order exGradFn 1 exBatch [exBatch] exState exGrads2 h⟩

/-- C4: predict is a pure, deterministic function of the parameters and the
input: two calls on the same batch with the same parameter state agree, and
the dropout classifier's forward pass in inference mode does not depend on
the environment's mask draws, so repeated calls return identical outputs. -/
theorem predict_deterministic (c : FeedForwardClassifier) (xs : List (List ℝ))
    (d : DropClassifier) (x m1 m2 m3 n1 n2 n3 : List ℝ) :
    c.predict xs = c.predict xs ∧
      d.forward false m1 m2 m3 x = d.forward false n1 n2 n3 x :=
  ⟨rfl, by simp [DropClassifier.forward, dropout]⟩

/-- The validation loop only writes the running test loss and accuracy:
the model, the gradients, the train/eval mode, the autograd mode and the
running training loss come out as they went in, on the normal path and on
the error path alike. -/
theorem validationLoop_frame :
    ∀ (bs : List Batch) (s : RunState),
      ((validationLoop bs s).1).model = s.model ∧
        ((validationLoop bs s).1).grads = s.grads ∧
          ((validationLoop bs s).1).runningLoss = s.runningLoss ∧
            ((validationLoop bs s).1).trainingMode = s.trainingMode ∧
              ((validationLoop bs s).1).gradEnabled = s.gradEnabled := by
  intro bs
  induction bs with
  | nil => intro s; exact ⟨rfl, rfl, rfl, rfl, rfl⟩
  | cons b rest ih =>
    intro s
    unfold validationLoop
    dsimp only
    split
    · exact ⟨rfl, rfl, rfl, rfl, rfl⟩
    · simpa using ih _

/-- C5 fails on the code: the validation loop never toggles the module
train/eval mode — the mode during and after the pass equals the mode before
it, so a pass begun in training mode runs with dropout still active and is
never placed in inference mode. -/
theorem validationPass_keeps_trainingMode (bs : List Batch) (s : RunState) :
    ((validationPass bs s).1).trainingMode = s.trainingMode := by
  unfold validationPass noGradScope
  simpa using (validationLoop_frame bs { s with gradEnabled := false }).2.2.2.1

/-- C7: exponentiation is strictly monotone, so the validation loop's
per-example predicted class — the argmax of exp(log_ps) — coincides with
the argmax taken on the log-probabilities directly, on every output row of
predict. -/
theorem predictedLabel_skip_exp (c : FeedForwardClassifier) (xs : List (List ℝ)) :
    (c.predict xs).map predictedLabel = (c.predict xs).map idxOfMax := by
  have haux : ∀ (l : List ℝ) (cur : ℝ) (i best : ℕ),
      idxOfMaxAux (l.map Real.exp) (Real.exp cur) i best = idxOfMaxAux l cur i best := by
    intro l
    induction l with
    | nil => intro cur i best; rfl
    | cons a t ih =>
      intro cur i best
      simp only [List.map_cons, idxOfMaxAux, Real.exp_lt_exp]
      by_cases hc : cur < a
      · rw [if_pos hc, if_pos hc, ih]
      · rw [if_neg hc, if_neg hc, ih]
  have hrow : ∀ z : List ℝ, predictedLabel z = idxOfMax z := by
    intro z
    cases z with
    | nil => rfl
    | cons a t =>
      simp only [predictedLabel, idxOfMax, List.map_cons]
      exact haux t a 1 0
  exact List.map_congr_left fun r _ => hrow r

/-- C8: the validation pass runs its body with gradient tracking disabled
and the autograd mode after the pass equals the mode before it on every
exit path — also when the loss collaborator raises InvalidLabel partway
through, as the concrete erroring run shows. -/
theorem validationPass_restores_gradMode (bs : List Batch) (s : RunState) :
    ((validationPass bs s).1).gradEnabled = s.gradEnabled ∧
      ((validationPass [⟨[[0]], [5]⟩] exState).2 = Except.error VErr.invalidLabel ∧
        ((validationPass [⟨[[0]], [5]⟩] exState).1).gradEnabled = exState.gradEnabled) := by
  refine ⟨by unfold validationPass noGradScope; simp, ?_, ?_⟩
  · rfl
  · unfold validationPass noGradScope
    simp

/-- C9: the validation pass leaves every Parameter unchanged — the model
after the pass equals the model before it — and in the training step the
parameters change only through the optimizer update applied to the
freshly computed gradients. -/
theorem validationPass_preserves_params (bs : List Batch) (s : RunState)
    (gf : GradFn) (lr : ℝ) (b : Batch) :
    ((validationPass bs s).1).model = s.model ∧
      (trainingStep gf lr b s).1.model =
        sgdUpdate lr s.model (addGrads (zeroGrads s.grads) (gf s.model b)) := by
  constructor
  · unfold validationPass noGradScope
    simpa using (validationLoop_frame bs { s with gradEnabled := false }).1
  · simp [trainingStep, opZeroGrad, opForward, opLoss, opBackward, opOptimStep,
      opAccumulate]

/-- C10: the forward pass flattens its input before the first affine layer,
so predict accepts a batch of unflattened images whose trailing dimensions
multiply out to the input width and still returns one row per example, each
of output width. -/
theorem predictRaw_shape (c : FeedForwardClassifier) (n : ℕ) (x : List Tensor3)
    (hw : c.outLayer.weight.length = c.outLayer.bias.length)
    (_hflat : ∀ t ∈ x, (flatten3 t).length = n) :
    (c.predictRaw x).length = x.length ∧
      ∀ r ∈ c.predictRaw x, r.length = c.outLayer.bias.length := by
  refine ⟨by simp [FeedForwardClassifier.predictRaw, FeedForwardClassifier.predict], ?_⟩
  intro r hr
  rcases List.mem_map.mp hr with ⟨t, _, rfl⟩
  exact forward_length c hw _

/-- Witness for C10 at a concrete unflattened 1 by 1 by 2 image. -/
theorem predictRaw_shape_witness :
    (exNet.outLayer.weight.length = exNet.outLayer.bias.length ∧
        (∀ t ∈ ([[[[1, 0]]]] : List Tensor3), (flatten3 t).length = 2)) ∧
      ((exNet.predictRaw [[[[1, 0]]]]).length = ([[[[(1 : ℝ), 0]]]] : List Tensor3).length ∧
        ∀ r ∈ exNet.predictRaw [[[[1, 0]]]], r.length = exNet.outLayer.bias.length) :=
  have hf : ∀ t ∈ ([[[[(1 : ℝ), 0]]]] : List Tensor3), (flatten3 t).length = 2 := by
    intro t ht
    rw [List.mem_singleton] at ht
    subst ht
    rfl
  ⟨⟨rfl, hf⟩, predictRaw_shape exNet 2 [[[[1, 0]]]] rfl hf⟩

end Lemmas

end DLP
